import Mathlib

/-
Verification of the ripple DNS propagation checker.

This file gives a shallow embedding of the propagation verification engine:
the record matcher, the iterative referral-walking authoritative resolver,
the per-target checkers, and the streaming poller of runCheckStream.
Network I/O is modelled by explicit oracle functions (a query either yields
a decoded message or fails, modelled as Option); the goroutine fan-out of a
sweep is serialized in target-list order, with every mutex-guarded result
application modelled as one atomic step, and the buffered event channel is
modelled as delivering each sweep's events before the loop continues.
-/

namespace Ripple

/-! ## String helpers (models of the Go strings functions used by the code) -/

/-- Model of Go strings.ToLower restricted to the byte-wise case mapping the
code relies on for record-type strings. -/
def strToLower (s : String) : String :=
  String.mk (s.data.map Char.toLower)

/-- Test whether sub occurs at the head of l (helper for substring search). -/
def leadMatch : List Char → List Char → Bool
  | [], _ => true
  | _ :: _, [] => false
  | c :: cs, d :: ds => c = d && leadMatch cs ds

/-- Test whether sub occurs anywhere in l (helper for substring search). -/
def charsContains : List Char → List Char → Bool
  | [], sub => leadMatch sub []
  | c :: t, sub => leadMatch sub (c :: t) || charsContains t sub

/-- Model of Go strings.Contains: sub occurs as a contiguous substring of s. -/
def strContains (s sub : String) : Bool :=
  charsContains s.data sub.data

/-- Drop the final suf.length characters of l when suf is a suffix of l. -/
def dropSuffixChars (l suf : List Char) : List Char :=
  if leadMatch suf.reverse l.reverse then l.take (l.length - suf.length) else l

/-- Model of Go strings.TrimSuffix: remove suf from the end of s when present. -/
def trimSuffix (s suf : String) : String :=
  String.mk (dropSuffixChars s.data suf.data)

/-- Model of Go strings.Split(addr, ":")[0]: the prefix of addr before the
first colon (the whole string when no colon occurs). -/
def splitFirst (addr : String) : String :=
  String.mk (addr.data.takeWhile (fun c => c ≠ ':'))

/-! ## DNS data model (miekg/dns message types as used by the code) -/

/-- dns library record-type code for A records. -/
def TypeA : Nat := 1
/-- dns library record-type code for NS records. -/
def TypeNS : Nat := 2
/-- dns library record-type code for CNAME records. -/
def TypeCNAME : Nat := 5
/-- dns library record-type code for MX records. -/
def TypeMX : Nat := 15
/-- dns library record-type code for TXT records. -/
def TypeTXT : Nat := 16
/-- dns library record-type code for AAAA records. -/
def TypeAAAA : Nat := 28

/-- A decoded resource record. Each constructor carries the owner name from
the record header plus the typed payload the code reads: the canonical text
of an address for A and AAAA, the character-string segments for TXT, the
target name for CNAME and NS, and host plus preference for MX. -/
inductive RR where
  | a (name : String) (addr : String)
  | aaaa (name : String) (addr : String)
  | txt (name : String) (strs : List String)
  | cname (name : String) (target : String)
  | ns (name : String) (target : String)
  | mx (name : String) (host : String) (pref : Nat)
  deriving DecidableEq

/-- A decoded DNS response: the authoritative header flag and the answer,
authority (Ns) and additional (Extra) sections. -/
structure Msg where
  authoritative : Bool
  answer : List RR
  ns : List RR
  extra : List RR
  deriving DecidableEq

/-- Network oracle for QueryDNS: server address, queried domain and qtype to
an optional decoded response; none models a network error or timeout. -/
def Network := String → String → Nat → Option Msg

/-- Oracle for the forward address lookup net.LookupIP: a name to the list
of its addresses in textual form; none models a failed lookup. -/
def Lookup := String → Option (List String)

/-- ResolverStatus tracks the propagation state of a single DNS server
(src/dns/dns.go). foundAt counts poll ticks in place of wall-clock time. -/
structure ResolverStatus where
  name : String
  addr : String
  propagated : Bool
  foundAt : Nat
  record : String
  deriving DecidableEq

/-! ## Record matcher (MatchRecord, src/dns/dns.go lines 326-364) -/

/-- One iteration of the MatchRecord loop body: the switch on qtype followed
by the type assertion on the record. some r models the early return of r
from inside the loop (note the TXT arm returns the joined text even when it
is empty); none models falling through to the next record. -/
def matchOne (rr : RR) (qtype : Nat) (mtch : String) : Option String :=
  if qtype = TypeA then
    match rr with
    | RR.a _ addr => if addr = mtch then some ("A " ++ addr) else none
    | _ => none
  else if qtype = TypeAAAA then
    match rr with
    | RR.aaaa _ addr => if addr = mtch then some ("AAAA " ++ addr) else none
    | _ => none
  else if qtype = TypeTXT then
    match rr with
    | RR.txt _ strs =>
      if strContains (String.join strs) mtch then some (String.join strs) else none
    | _ => none
  else if qtype = TypeCNAME then
    match rr with
    | RR.cname _ target =>
      if strContains target mtch then some ("CNAME " ++ target) else none
    | _ => none
  else if qtype = TypeMX then
    match rr with
    | RR.mx _ host pref =>
      if strContains host mtch then
        some ("MX " ++ host ++ " (pref " ++ toString pref ++ ")")
      else none
    | _ => none
  else none

/-- MatchRecord checks DNS answer records for a match, returning the match
string of the first record whose arm fires (getD models the early return),
and "" when no arm fires on any record. -/
def MatchRecord (answers : List RR) (qtype : Nat) (mtch : String) : String :=
  match answers with
  | [] => ""
  | rr :: rest => (matchOne rr qtype mtch).getD (MatchRecord rest qtype mtch)

/-! ## Authoritative resolver (FindAuthoritativeServers, getAuthoritativeNS) -/

/-- The candidate loop of FindAuthoritativeServers and getAuthoritativeNS:
query each server in order and keep the first successful response; none when
every candidate fails (so also when the candidate list is empty). -/
def queryFirst (net : Network) (servers : List String) (domain : String)
    (qtype : Nat) : Option Msg :=
  match servers with
  | [] => none
  | s :: rest =>
    match net s domain qtype with
    | some m => some m
    | none => queryFirst net rest domain qtype

/-- The glue map built from A records of the additional section
(glue[a.Hdr.Name] = a.A.String()); a Go map assignment lets later records
overwrite earlier ones, so later entries take precedence here. -/
def glueLookup (extra : List RR) (name : String) : Option String :=
  match extra with
  | [] => none
  | rr :: rest =>
    match glueLookup rest name with
    | some ip => some ip
    | none =>
      match rr with
      | RR.a n addr => if n = name then some addr else none
      | _ => none

/-- NS-record target names collected from a message section, in order. -/
def extractNS (rrs : List RR) : List String :=
  rrs.filterMap (fun rr =>
    match rr with
    | RR.ns _ target => some target
    | _ => none)

/-- Resolve one NS target name to an address: prefer a matching glue record,
otherwise fall back to the forward lookup of the name without its trailing
dot, taking the first returned address; none when both fail. -/
def resolveNSName (lookup : Lookup) (glue : String → Option String)
    (nsName : String) : Option String :=
  match glue nsName with
  | some ip => some ip
  | none =>
    match lookup (trimSuffix nsName ".") with
    | some (ip :: _) => some ip
    | _ => none

/-- The new candidate list built from a referral response: each NS name of
the authority section resolved to an address (glue first) with ":53"
appended; unresolvable names are skipped. -/
def referralTargets (lookup : Lookup) (resp : Msg) : List String :=
  ((extractNS resp.ns).filterMap
      (resolveNSName lookup (glueLookup resp.extra))).map (fun ip => ip ++ ":53")

/-- Errors of FindAuthoritativeServers, each carrying the depth the fmt.Errorf
message interpolates. -/
inductive ResolveError where
  | noResponse (depth : Nat)
  | noReferral (depth : Nat)
  | maxDepthExceeded
  deriving DecidableEq

/-- The error strings produced by FindAuthoritativeServers. -/
def resolveErrorMessage : ResolveError → String
  | ResolveError.noResponse d => "no response from nameservers at depth " ++ toString d
  | ResolveError.noReferral d => "no more referrals at depth " ++ toString d
  | ResolveError.maxDepthExceeded => "max depth exceeded"

/-- A status entry built directly from a candidate address, used by both
fallback paths of getAuthoritativeNS. -/
def fallbackStatus (ns : String) : ResolverStatus :=
  ⟨trimSuffix ns ":53", ns, false, 0, ""⟩

/-- NS names taken from the answer section of the NS query, falling back to
the authority section when the answer section has none. -/
def nsNamesOf (resp : Msg) : List String :=
  if (extractNS resp.answer).isEmpty then extractNS resp.ns else extractNS resp.answer

/-- The status entries getAuthoritativeNS builds from the NS response: each
NS name resolved to an address (glue of this response first, else forward
lookup), skipping names that cannot be resolved. -/
def authNSResolved (lookup : Lookup) (resp : Msg) : List ResolverStatus :=
  (nsNamesOf resp).filterMap (fun nsName =>
    match resolveNSName lookup (glueLookup resp.extra) nsName with
    | some ip => some ⟨trimSuffix nsName ".", ip ++ ":53", false, 0, ""⟩
    | none => none)

/-- getAuthoritativeNS queries the current candidates for NS records and
resolves them to addresses; when the query gets no response, or resolution
yields zero entries, it falls back to the current candidate list verbatim. -/
def getAuthoritativeNS (net : Network) (lookup : Lookup) (domain : String)
    (currentNS : List String) : List ResolverStatus :=
  match queryFirst net currentNS domain TypeNS with
  | none => currentNS.map fallbackStatus
  | some resp =>
    if (authNSResolved lookup resp).isEmpty then currentNS.map fallbackStatus
    else authNSResolved lookup resp

/-- The referral-walk loop of FindAuthoritativeServers: probe the candidates
with an A query; no response fails with noResponse at the current depth; an
authoritative response proceeds to nameserver enumeration; otherwise follow
the referral, failing with noReferral when no usable address results. The
fuel argument models the remaining iterations of the bounded depth loop
(10 at the start); exhausting it fails with maxDepthExceeded. -/
def findAuthLoop (net : Network) (lookup : Lookup) (domain : String) :
    List String → Nat → Nat → Except ResolveError (List ResolverStatus)
  | _, _, 0 => Except.error ResolveError.maxDepthExceeded
  | servers, depth, fuel + 1 =>
    match queryFirst net servers domain TypeA with
    | none => Except.error (ResolveError.noResponse depth)
    | some resp =>
      if resp.authoritative then
        Except.ok (getAuthoritativeNS net lookup domain servers)
      else
        if (referralTargets lookup resp).isEmpty then
          Except.error (ResolveError.noReferral depth)
        else
          findAuthLoop net lookup domain (referralTargets lookup resp) (depth + 1) fuel

/-- FindAuthoritativeServers traverses the DNS tree from the root servers,
bounded to 10 referral iterations. -/
def FindAuthoritativeServers (net : Network) (lookup : Lookup) (domain : String)
    (rootServers : List String) : Except ResolveError (List ResolverStatus) :=
  findAuthLoop net lookup domain rootServers 0 10

/-- Instrumentation of findAuthLoop counting how many referral hops the walk
follows before it stops for any reason. -/
def findAuthHops (net : Network) (lookup : Lookup) (domain : String) :
    List String → Nat → Nat
  | _, 0 => 0
  | servers, fuel + 1 =>
    match queryFirst net servers domain TypeA with
    | none => 0
    | some resp =>
      if resp.authoritative then 0
      else
        if (referralTargets lookup resp).isEmpty then 0
        else 1 + findAuthHops net lookup domain (referralTargets lookup resp) fuel

/-! ## Target checkers (QueryAuthoritativeRecord, CheckResolver) -/

/-- QueryAuthoritativeRecord checks one authoritative server: a failed query
returns "" (no match); otherwise the answer section is matched. -/
def QueryAuthoritativeRecord (net : Network) (server domain : String)
    (qtype : Nat) (mtch : String) : String :=
  match net server domain qtype with
  | none => ""
  | some resp => MatchRecord resp.answer qtype mtch

/-- Oracle for one net.Resolver: the four typed lookups CheckResolver uses.
LookupIP with network "ip4" yields textual addresses, LookupTXT yields one
already-joined string per TXT record, LookupCNAME yields the canonical name,
LookupMX yields host and preference pairs; none models a failed lookup. -/
structure ResolverOracle where
  lookupIP4 : String → Option (List String)
  lookupTXT : String → Option (List String)
  lookupCNAME : String → Option String
  lookupMX : String → Option (List (String × Nat))

/-- The resolver selection at the top of CheckResolver: an empty address
selects net.DefaultResolver (the process's system resolver); otherwise a
resolver dialing the given address is used. -/
def pickResolver (sys : ResolverOracle) (dial : String → ResolverOracle)
    (addr : String) : ResolverOracle :=
  if addr = "" then sys else dial addr

/-- checkA: forward ip4 lookup; a failed lookup is no match; otherwise match
the first address exactly equal to the target value. -/
def checkA (r : ResolverOracle) (domain mtch : String) : String × Bool :=
  match r.lookupIP4 domain with
  | none => ("", false)
  | some ips =>
    match ips.find? (fun ip => ip = mtch) with
    | some ip => ("A " ++ ip, true)
    | none => ("", false)

/-- checkTXT: TXT lookup; match the first record containing the target. -/
def checkTXT (r : ResolverOracle) (domain mtch : String) : String × Bool :=
  match r.lookupTXT domain with
  | none => ("", false)
  | some records =>
    match records.find? (fun rec => strContains rec mtch) with
    | some rec => (rec, true)
    | none => ("", false)

/-- checkCNAME: canonical-name lookup; match when it contains the target. -/
def checkCNAME (r : ResolverOracle) (domain mtch : String) : String × Bool :=
  match r.lookupCNAME domain with
  | none => ("", false)
  | some cname =>
    if strContains cname mtch then ("CNAME " ++ cname, true) else ("", false)

/-- checkMX: mail-exchange lookup; match the first host containing the target. -/
def checkMX (r : ResolverOracle) (domain mtch : String) : String × Bool :=
  match r.lookupMX domain with
  | none => ("", false)
  | some mxs =>
    match mxs.find? (fun mx => strContains mx.1 mtch) with
    | some mx => ("MX " ++ mx.1 ++ " (pref " ++ toString mx.2 ++ ")", true)
    | none => ("", false)

/-- CheckResolver checks a single resolver (src/dns/dns.go lines 366-396):
pick the system resolver for an empty address, then dispatch on the
lowercased record type; unknown types fall through to no match. -/
def CheckResolver (sys : ResolverOracle) (dial : String → ResolverOracle)
    (addr domain recordType mtch : String) : String × Bool :=
  if strToLower recordType = "a" then checkA (pickResolver sys dial addr) domain mtch
  else if strToLower recordType = "txt" then checkTXT (pickResolver sys dial addr) domain mtch
  else if strToLower recordType = "cname" then checkCNAME (pickResolver sys dial addr) domain mtch
  else if strToLower recordType = "mx" then checkMX (pickResolver sys dial addr) domain mtch
  else ("", false)

/-- ParseRecordType converts a string record type to a dns library type
constant, with 0 for unsupported types. -/
def ParseRecordType (t : String) : Nat :=
  if strToLower t = "a" then TypeA
  else if strToLower t = "aaaa" then TypeAAAA
  else if strToLower t = "txt" then TypeTXT
  else if strToLower t = "cname" then TypeCNAME
  else if strToLower t = "mx" then TypeMX
  else if strToLower t = "ns" then TypeNS
  else 0

/-! ## Resolver target list (CheckPropagation lines 470-480, runCheckStream
lines 766-776, runCLI lines 1026-1036 build the identical list) -/

/-- The resolver target list: one entry per configured public resolver (name
is the address up to the first colon), built by appending in configuration
order, followed by the synthetic "local" entry with an empty address. -/
def buildResolvers (publicResolvers : List String) : List ResolverStatus :=
  (publicResolvers.foldl
      (fun acc addr => acc ++ [⟨splitFirst addr, addr, false, 0, ""⟩]) [])
    ++ [⟨"local", "", false, 0, ""⟩]

/-! ## Mutex-guarded result application (CheckAuthoritativeAllSilent lines
584-610 and the checkAll closure of runCheckStream lines 806-885)

Each concurrent checker goroutine ends with the atomic region: if it found a
match, lock the shared mutex and, only when the target is still
unpropagated, set the flag, the elapsed time and the record, and emit one
propagation event. The mutex serializes these regions, so a whole run is an
arbitrary sequence of such atomic applications; Completion records one
checker result and applyCompletions folds a sequence of them. -/

/-- One checker result handed to the exclusion region: the index of its
target, whether a match was found (record != ""), and the record and elapsed
value it would write. -/
structure Completion where
  idx : Nat
  found : Bool
  record : String
  elapsed : Nat
  deriving DecidableEq

/-- The atomic mutex region applied to one checker result: when a match was
found and the target is still unpropagated, mark it propagated, store the
elapsed time and record, and emit the target's propagation event (returned
as the target index); otherwise leave the state unchanged and emit nothing. -/
def applyCompletion (sts : List ResolverStatus) (c : Completion) :
    List ResolverStatus × Option Nat :=
  match sts.get? c.idx with
  | none => (sts, none)
  | some s =>
    if c.found && !s.propagated then
      (sts.set c.idx { s with propagated := true, foundAt := c.elapsed, record := c.record },
       some c.idx)
    else (sts, none)

/-- Fold a sequence of serialized completions over the shared status list,
collecting the emitted propagation events in order. -/
def applyCompletions : List ResolverStatus → List Completion → List ResolverStatus × List Nat
  | sts, [] => (sts, [])
  | sts, c :: rest =>
    ((applyCompletions (applyCompletion sts c).1 rest).1,
     (applyCompletion sts c).2.toList ++ (applyCompletions (applyCompletion sts c).1 rest).2)

/-- The propagated flag a status list holds at index i; out-of-range indexes
count as propagated so they can never emit. -/
def propAt (sts : List ResolverStatus) (i : Nat) : Bool :=
  match sts.get? i with
  | some s => s.propagated
  | none => true

/-- Occurrences of target index i in an emitted event list. -/
def countEmits : List Nat → Nat → Nat
  | [], _ => 0
  | j :: rest, i => (if j = i then 1 else 0) + countEmits rest i

/-! ## Streaming engine (runCheckStream, src/unnamed/part_000 lines 741-948) -/

/-- The SSE event values runCheckStream emits, tagged as in its StreamEvent
type field: discovered and resolverListed list the targets, the two
propagated events report one target's success, and complete, timeoutEv and
errorEv are the terminal events. -/
inductive StreamEvent where
  | discovered (name addr : String)
  | resolverListed (name addr : String)
  | authPropagated (name addr record : String)
  | resolverPropagated (name addr record : String)
  | complete
  | timeoutEv
  | errorEv (msg : String)
  deriving DecidableEq

/-- Terminal events: complete, timeout and error end the stream. -/
def isTerminal : StreamEvent → Bool
  | StreamEvent.complete => true
  | StreamEvent.timeoutEv => true
  | StreamEvent.errorEv _ => true
  | _ => false

/-- The per-target progress events emitted from inside a sweep. -/
def isPropagatedEvent : StreamEvent → Bool
  | StreamEvent.authPropagated _ _ _ => true
  | StreamEvent.resolverPropagated _ _ _ => true
  | _ => false

/-- The address string placed into resolver events: "system" for the empty
address, otherwise the address without its ":53" suffix. -/
def displayAddr (addr : String) : String :=
  if addr = "" then "system" else trimSuffix addr ":53"

/-- Configuration fields the engine reads. -/
structure Config where
  publicResolvers : List String
  rootServers : List String

/-- The run's network environment: query is the QueryDNS oracle and sys and
dial the resolver-lookup oracles, each indexed by the poll tick at which the
sweep runs so that answers may change between retries (tick 0 also serves
the discovery stage); lookup is the forward-lookup oracle of discovery. -/
structure NetEnv where
  query : Nat → Network
  lookup : Lookup
  sys : Nat → ResolverOracle
  dial : Nat → String → ResolverOracle

/-- One authoritative-target step of a sweep: skip propagated targets;
otherwise run the checker and, on a match, apply the atomic update and emit
the auth_propagated event. -/
def checkAuthOne (q : Network) (domain : String) (dnsType : Nat) (mtch : String)
    (tick : Nat) (s : ResolverStatus) : ResolverStatus × Option StreamEvent :=
  if s.propagated then (s, none)
  else
    if QueryAuthoritativeRecord q s.addr domain dnsType mtch ≠ "" then
      ({ s with
          propagated := true
          foundAt := tick
          record := QueryAuthoritativeRecord q s.addr domain dnsType mtch },
       some (StreamEvent.authPropagated s.name (trimSuffix s.addr ":53")
         (QueryAuthoritativeRecord q s.addr domain dnsType mtch)))
    else (s, none)

/-- One resolver-target step of a sweep: skip propagated targets; otherwise
run CheckResolver on the domain without its trailing dot and, on a match,
apply the atomic update and emit the resolver_propagated event. -/
def checkResOne (sys : ResolverOracle) (dial : String → ResolverOracle)
    (domain recordType mtch : String) (tick : Nat) (r : ResolverStatus) :
    ResolverStatus × Option StreamEvent :=
  if r.propagated then (r, none)
  else
    if (CheckResolver sys dial r.addr (trimSuffix domain ".") recordType mtch).2 then
      ({ r with
          propagated := true
          foundAt := tick
          record := (CheckResolver sys dial r.addr (trimSuffix domain ".") recordType mtch).1 },
       some (StreamEvent.resolverPropagated r.name (displayAddr r.addr)
         (CheckResolver sys dial r.addr (trimSuffix domain ".") recordType mtch).1))
    else (r, none)

/-- Run one batch of per-target steps over a status list, in list order (a
serialization of the goroutine fan-out joined by wg.Wait), returning the
updated statuses and the emitted events. -/
def sweepList (check : ResolverStatus → ResolverStatus × Option StreamEvent) :
    List ResolverStatus → List ResolverStatus × List StreamEvent
  | [] => ([], [])
  | s :: rest =>
    ((check s).1 :: (sweepList check rest).1,
     (check s).2.toList ++ (sweepList check rest).2)

/-- The checkAll closure: one full sweep, authoritative batch first, then the
resolver batch. -/
def checkAll (env : NetEnv) (domain recordType mtch : String) (dnsType tick : Nat)
    (auth res : List ResolverStatus) :
    (List ResolverStatus × List ResolverStatus) × List StreamEvent :=
  (((sweepList (checkAuthOne (env.query tick) domain dnsType mtch tick) auth).1,
    (sweepList (checkResOne (env.sys tick) (env.dial tick) domain recordType mtch tick) res).1),
   (sweepList (checkAuthOne (env.query tick) domain dnsType mtch tick) auth).2
     ++ (sweepList (checkResOne (env.sys tick) (env.dial tick) domain recordType mtch tick) res).2)

/-- The allDone scan: every status of a list is propagated. -/
def allPropagated (l : List ResolverStatus) : Bool :=
  l.all (fun s => s.propagated)

/-- allDone over both target sets, authoritative first as in the code. -/
def allDone (auth res : List ResolverStatus) : Bool :=
  allPropagated auth && allPropagated res

/-- The retry loop of runCheckStream after the initial sweep: emit complete
once every target is propagated; otherwise wait for the next tick and sweep
again. fuel is the number of ticks remaining before the deadline context
fires; at fuel 0 the ctx.Done branch emits timeout (the loop still prefers
complete when the final sweep finished everything). -/
def pollLoop (env : NetEnv) (domain recordType mtch : String) (dnsType : Nat) :
    List ResolverStatus → List ResolverStatus → Nat → Nat → List StreamEvent
  | auth, res, _, 0 =>
    if allDone auth res then [StreamEvent.complete] else [StreamEvent.timeoutEv]
  | auth, res, tick, fuel + 1 =>
    if allDone auth res then [StreamEvent.complete]
    else
      (checkAll env domain recordType mtch dnsType (tick + 1) auth res).2 ++
        pollLoop env domain recordType mtch dnsType
          (checkAll env domain recordType mtch dnsType (tick + 1) auth res).1.1
          (checkAll env domain recordType mtch dnsType (tick + 1) auth res).1.2
          (tick + 1) fuel

/-- runCheckStream: discover the authoritative servers (a failure emits the
error terminal event and stops), list them and the resolver targets, run the
initial sweep at tick 0, then poll until complete or timeout. The event
channel hand-off is serialized: each sweep's events appear in sweep order
and the drain before the terminal send is modelled as completing. -/
def runCheckStream (cfg : Config) (env : NetEnv) (domain recordType mtch : String)
    (dnsType fuel : Nat) : List StreamEvent :=
  match FindAuthoritativeServers (env.query 0) env.lookup domain cfg.rootServers with
  | Except.error e =>
    [StreamEvent.errorEv ("failed to find authoritative servers: " ++ resolveErrorMessage e)]
  | Except.ok auth =>
    auth.map (fun s => StreamEvent.discovered s.name (trimSuffix s.addr ":53"))
      ++ (buildResolvers cfg.publicResolvers).map
          (fun r => StreamEvent.resolverListed r.name (displayAddr r.addr))
      ++ (checkAll env domain recordType mtch dnsType 0 auth
            (buildResolvers cfg.publicResolvers)).2
      ++ pollLoop env domain recordType mtch dnsType
          (checkAll env domain recordType mtch dnsType 0 auth
            (buildResolvers cfg.publicResolvers)).1.1
          (checkAll env domain recordType mtch dnsType 0 auth
            (buildResolvers cfg.publicResolvers)).1.2
          0 fuel

/-! ## Concrete test fixtures -/

/-- A network on which every query fails. -/
def netNone : Network := fun _ _ _ => none

/-- A forward lookup that always fails. -/
def lookupNone : Lookup := fun _ => none

/-- A resolver oracle on which every lookup fails. -/
def oracleNone : ResolverOracle :=
  { lookupIP4 := fun _ => none
    lookupTXT := fun _ => none
    lookupCNAME := fun _ => none
    lookupMX := fun _ => none }

/-- A resolver oracle every one of whose lookups answers with the address
2001:db8::1 (so any lookup CheckResolver could possibly run observes that
exact canonical address in its answer). -/
def oracleAAAA : ResolverOracle :=
  { lookupIP4 := fun _ => some ["2001:db8::1"]
    lookupTXT := fun _ => some ["2001:db8::1"]
    lookupCNAME := fun _ => some "2001:db8::1"
    lookupMX := fun _ => some [("2001:db8::1", 10)] }

/-- A small configuration with one public resolver and one root server. -/
def cfg0 : Config :=
  { publicResolvers := ["1.1.1.1:53"]
    rootServers := ["198.41.0.4:53"] }

/-- An environment with a dead network: discovery and every check fail. -/
def env0 : NetEnv :=
  { query := fun _ => netNone
    lookup := lookupNone
    sys := fun _ => oracleNone
    dial := fun _ _ => oracleNone }

/-- The referral walk scenario of the spec: the root returns a
non-authoritative NS referral to ns1/ns2.example.com with A glue for both. -/
def referralMsg : Msg :=
  { authoritative := false
    answer := []
    ns := [RR.ns "example.com." "ns1.example.com.", RR.ns "example.com." "ns2.example.com."]
    extra := [RR.a "ns1.example.com." "192.0.2.1", RR.a "ns2.example.com." "192.0.2.2"] }

/-- The child servers answer the A probe authoritatively. -/
def childAMsg : Msg :=
  { authoritative := true, answer := [], ns := [], extra := [] }

/-- The child servers answer the NS enumeration query authoritatively with
the same two names and glue for both. -/
def childNSMsg : Msg :=
  { authoritative := true
    answer := [RR.ns "sub.example.com." "ns1.example.com.",
               RR.ns "sub.example.com." "ns2.example.com."]
    ns := []
    extra := [RR.a "ns1.example.com." "192.0.2.1", RR.a "ns2.example.com." "192.0.2.2"] }

/-- The network of the referral walk scenario. -/
def scenarioNet : Network := fun server _ qtype =>
  if server = "198.41.0.4:53" then
    if qtype = TypeA then some referralMsg else none
  else if server = "192.0.2.1:53" then
    if qtype = TypeA then some childAMsg
    else if qtype = TypeNS then some childNSMsg
    else none
  else if server = "192.0.2.2:53" then
    if qtype = TypeA then some childAMsg
    else if qtype = TypeNS then some childNSMsg
    else none
  else none

/-- The root server list of the referral walk scenario. -/
def scenarioRoots : List String := ["198.41.0.4:53"]

/-! ## Helper lemmas: record matcher -/

/-- matchOne at qtype TypeTXT on a TXT record fires exactly when the joined
text contains the target, returning the joined text. -/
theorem matchOne_txt_txt (n : String) (strs : List String) (mtch : String) :
    matchOne (RR.txt n strs) TypeTXT mtch =
      if strContains (String.join strs) mtch then some (String.join strs) else none := rfl

theorem matchOne_txt_a (n addr mtch : String) :
    matchOne (RR.a n addr) TypeTXT mtch = none := rfl

theorem matchOne_txt_aaaa (n addr mtch : String) :
    matchOne (RR.aaaa n addr) TypeTXT mtch = none := rfl

theorem matchOne_txt_cname (n t mtch : String) :
    matchOne (RR.cname n t) TypeTXT mtch = none := rfl

theorem matchOne_txt_ns (n t mtch : String) :
    matchOne (RR.ns n t) TypeTXT mtch = none := rfl

theorem matchOne_txt_mx (n hst : String) (p : Nat) (mtch : String) :
    matchOne (RR.mx n hst p) TypeTXT mtch = none := rfl

/-- matchOne never fires at qtype TypeNS. -/
theorem matchOne_ns_eq (rr : RR) (mtch : String) : matchOne rr TypeNS mtch = none := by
  cases rr <;> rfl

/-- MatchRecord yields no match at qtype TypeNS on any answer set. -/
theorem MatchRecord_ns_eq (answers : List RR) (mtch : String) :
    MatchRecord answers TypeNS mtch = "" := by
  induction answers with
  | nil => rfl
  | cons rr rest ih => simp only [MatchRecord, matchOne_ns_eq, Option.getD_none]; exact ih

/-- A successful TXT match returns the joined text of some TXT record of the
answer set whose joined text contains the target. -/
theorem MatchRecord_txt_success (answers : List RR) (mtch : String)
    (h : MatchRecord answers TypeTXT mtch ≠ "") :
    ∃ name strs, RR.txt name strs ∈ answers ∧
      MatchRecord answers TypeTXT mtch = String.join strs ∧
      strContains (String.join strs) mtch = true := by
  induction answers with
  | nil => exact absurd rfl h
  | cons rr rest ih =>
    cases rr with
    | txt name strs =>
      simp only [MatchRecord, matchOne_txt_txt] at h ⊢
      by_cases hc : strContains (String.join strs) mtch = true
      · rw [if_pos hc, Option.getD_some] at h ⊢
        exact ⟨name, strs, List.mem_cons_self _ _, rfl, hc⟩
      · rw [if_neg hc, Option.getD_none] at h ⊢
        obtain ⟨name', strs', hmem, heq, hcs⟩ := ih h
        exact ⟨name', strs', List.mem_cons_of_mem _ hmem, heq, hcs⟩
    | a n addr =>
      simp only [MatchRecord, matchOne_txt_a, Option.getD_none] at h ⊢
      obtain ⟨name', strs', hmem, heq, hcs⟩ := ih h
      exact ⟨name', strs', List.mem_cons_of_mem _ hmem, heq, hcs⟩
    | aaaa n addr =>
      simp only [MatchRecord, matchOne_txt_aaaa, Option.getD_none] at h ⊢
      obtain ⟨name', strs', hmem, heq, hcs⟩ := ih h
      exact ⟨name', strs', List.mem_cons_of_mem _ hmem, heq, hcs⟩
    | cname n t =>
      simp only [MatchRecord, matchOne_txt_cname, Option.getD_none] at h ⊢
      obtain ⟨name', strs', hmem, heq, hcs⟩ := ih h
      exact ⟨name', strs', List.mem_cons_of_mem _ hmem, heq, hcs⟩
    | ns n t =>
      simp only [MatchRecord, matchOne_txt_ns, Option.getD_none] at h ⊢
      obtain ⟨name', strs', hmem, heq, hcs⟩ := ih h
      exact ⟨name', strs', List.mem_cons_of_mem _ hmem, heq, hcs⟩
    | mx n hst p =>
      simp only [MatchRecord, matchOne_txt_mx, Option.getD_none] at h ⊢
      obtain ⟨name', strs', hmem, heq, hcs⟩ := ih h
      exact ⟨name', strs', List.mem_cons_of_mem _ hmem, heq, hcs⟩

/-- When every TXT record of the answer set has non-empty joined text, the
existence of a containing TXT record makes the TXT match succeed. -/
theorem MatchRecord_txt_found (answers : List RR) (mtch : String)
    (hne : ∀ name strs, RR.txt name strs ∈ answers → String.join strs ≠ "")
    (hex : ∃ name strs, RR.txt name strs ∈ answers ∧
      strContains (String.join strs) mtch = true) :
    MatchRecord answers TypeTXT mtch ≠ "" := by
  induction answers with
  | nil => obtain ⟨_, _, hmem, _⟩ := hex; cases hmem
  | cons rr rest ih =>
    cases rr with
    | txt name strs =>
      simp only [MatchRecord, matchOne_txt_txt]
      by_cases hc : strContains (String.join strs) mtch = true
      · rw [if_pos hc, Option.getD_some]
        exact hne name strs (List.mem_cons_self _ _)
      · rw [if_neg hc, Option.getD_none]
        apply ih
        · intro name' strs' hmem
          exact hne name' strs' (List.mem_cons_of_mem _ hmem)
        · obtain ⟨name', strs', hmem, hcs⟩ := hex
          rcases List.mem_cons.mp hmem with heq | hmem'
          · cases heq; exact absurd hcs hc
          · exact ⟨name', strs', hmem', hcs⟩
    | a n addr =>
      simp only [MatchRecord, matchOne_txt_a, Option.getD_none]
      apply ih
      · intro name' strs' hmem
        exact hne name' strs' (List.mem_cons_of_mem _ hmem)
      · obtain ⟨name', strs', hmem, hcs⟩ := hex
        rcases List.mem_cons.mp hmem with heq | hmem'
        · cases heq
        · exact ⟨name', strs', hmem', hcs⟩
    | aaaa n addr =>
      simp only [MatchRecord, matchOne_txt_aaaa, Option.getD_none]
      apply ih
      · intro name' strs' hmem
        exact hne name' strs' (List.mem_cons_of_mem _ hmem)
      · obtain ⟨name', strs', hmem, hcs⟩ := hex
        rcases List.mem_cons.mp hmem with heq | hmem'
        · cases heq
        · exact ⟨name', strs', hmem', hcs⟩
    | cname n t =>
      simp only [MatchRecord, matchOne_txt_cname, Option.getD_none]
      apply ih
      · intro name' strs' hmem
        exact hne name' strs' (List.mem_cons_of_mem _ hmem)
      · obtain ⟨name', strs', hmem, hcs⟩ := hex
        rcases List.mem_cons.mp hmem with heq | hmem'
        · cases heq
        · exact ⟨name', strs', hmem', hcs⟩
    | ns n t =>
      simp only [MatchRecord, matchOne_txt_ns, Option.getD_none]
      apply ih
      · intro name' strs' hmem
        exact hne name' strs' (List.mem_cons_of_mem _ hmem)
      · obtain ⟨name', strs', hmem, hcs⟩ := hex
        rcases List.mem_cons.mp hmem with heq | hmem'
        · cases heq
        · exact ⟨name', strs', hmem', hcs⟩
    | mx n hst p =>
      simp only [MatchRecord, matchOne_txt_mx, Option.getD_none]
      apply ih
      · intro name' strs' hmem
        exact hne name' strs' (List.mem_cons_of_mem _ hmem)
      · obtain ⟨name', strs', hmem, hcs⟩ := hex
        rcases List.mem_cons.mp hmem with heq | hmem'
        · cases heq
        · exact ⟨name', strs', hmem', hcs⟩

/-! ## Helper lemmas: authoritative resolver -/

/-- The candidate loop yields nothing on an empty candidate list. -/
theorem queryFirst_nil (net : Network) (domain : String) (qtype : Nat) :
    queryFirst net [] domain qtype = none := rfl

/-- A successful candidate loop implies a non-empty candidate list. -/
theorem queryFirst_some_ne_nil {net : Network} {servers : List String}
    {domain : String} {qtype : Nat} {resp : Msg}
    (h : queryFirst net servers domain qtype = some resp) : servers ≠ [] := by
  intro hnil
  rw [hnil, queryFirst_nil] at h
  cases h

/-- When no candidate responds at a depth with fuel remaining, the walk fails
with noResponse at that depth. -/
theorem findAuthLoop_noResponse (net : Network) (lookup : Lookup) (domain : String)
    (servers : List String) (depth fuel : Nat) (hfuel : fuel ≠ 0)
    (hq : queryFirst net servers domain TypeA = none) :
    findAuthLoop net lookup domain servers depth fuel =
      Except.error (ResolveError.noResponse depth) := by
  cases fuel with
  | zero => exact absurd rfl hfuel
  | succ n => simp only [findAuthLoop, hq]

/-- On a network that always answers non-authoritatively with a usable
referral, the walk burns all its fuel and fails with maxDepthExceeded. -/
theorem findAuthLoop_maxDepth (net : Network) (lookup : Lookup) (domain : String)
    (H : ∀ s d, ∃ resp, net s d TypeA = some resp ∧ resp.authoritative = false ∧
      (referralTargets lookup resp).isEmpty = false) :
    ∀ fuel servers depth, servers ≠ [] →
      findAuthLoop net lookup domain servers depth fuel =
        Except.error ResolveError.maxDepthExceeded := by
  intro fuel
  induction fuel with
  | zero => intro servers depth _; rfl
  | succ n ih =>
    intro servers depth hne
    cases servers with
    | nil => exact absurd rfl hne
    | cons s rest =>
      obtain ⟨resp, hq, hauth, href⟩ := H s domain
      have hqf : queryFirst net (s :: rest) domain TypeA = some resp := by
        simp only [queryFirst, hq]
      have hrefne : referralTargets lookup resp ≠ [] := by
        intro hnil
        rw [hnil] at href
        cases href
      simp only [findAuthLoop, hqf, hauth, href, Bool.false_eq_true, if_false]
      exact ih (referralTargets lookup resp) (depth + 1) hrefne

/-- The referral walk follows at most fuel referral hops. -/
theorem findAuthHops_le (net : Network) (lookup : Lookup) (domain : String) :
    ∀ fuel servers, findAuthHops net lookup domain servers fuel ≤ fuel := by
  intro fuel
  induction fuel with
  | zero => intro servers; exact Nat.le_refl 0
  | succ n ih =>
    intro servers
    simp only [findAuthHops]
    cases hq : queryFirst net servers domain TypeA with
    | none => exact Nat.zero_le _
    | some resp =>
      cases ha : resp.authoritative with
      | true => simp [ha]
      | false =>
        cases he : (referralTargets lookup resp).isEmpty with
        | true => simp [ha, he]
        | false =>
          simp only [ha, he, Bool.false_eq_true, if_false]
          have := ih (referralTargets lookup resp)
          omega

/-- getAuthoritativeNS falls back to the current candidates verbatim when the
NS query gets no response. -/
theorem getAuthoritativeNS_noResponse (net : Network) (lookup : Lookup)
    (domain : String) (currentNS : List String)
    (hq : queryFirst net currentNS domain TypeNS = none) :
    getAuthoritativeNS net lookup domain currentNS = currentNS.map fallbackStatus := by
  simp only [getAuthoritativeNS, hq]

/-- getAuthoritativeNS falls back to the current candidates verbatim when the
response resolves to zero usable endpoints. -/
theorem getAuthoritativeNS_emptyResolved (net : Network) (lookup : Lookup)
    (domain : String) (currentNS : List String) (resp : Msg)
    (hq : queryFirst net currentNS domain TypeNS = some resp)
    (he : authNSResolved lookup resp = []) :
    getAuthoritativeNS net lookup domain currentNS = currentNS.map fallbackStatus := by
  simp only [getAuthoritativeNS, hq, he, List.isEmpty_nil, if_true]

/-- getAuthoritativeNS maps non-empty candidate lists to non-empty endpoint
lists. -/
theorem getAuthoritativeNS_ne_nil (net : Network) (lookup : Lookup)
    (domain : String) (currentNS : List String) (h : currentNS ≠ []) :
    getAuthoritativeNS net lookup domain currentNS ≠ [] := by
  have hmap : currentNS.map fallbackStatus ≠ [] := by
    intro hnil
    exact h (List.map_eq_nil_iff.mp hnil)
  unfold getAuthoritativeNS
  cases hq : queryFirst net currentNS domain TypeNS with
  | none => exact hmap
  | some resp =>
    cases he : (authNSResolved lookup resp).isEmpty with
    | true =>
      simp only [he, if_true]
      exact hmap
    | false =>
      simp only [he, Bool.false_eq_true, if_false]
      intro hnil
      rw [hnil] at he
      cases he

/-- Any successful walk returns a non-empty endpoint list. -/
theorem findAuthLoop_ok_ne_nil (net : Network) (lookup : Lookup) (domain : String) :
    ∀ fuel servers depth eps,
      findAuthLoop net lookup domain servers depth fuel = Except.ok eps → eps ≠ [] := by
  intro fuel
  induction fuel with
  | zero => intro servers depth eps h; cases h
  | succ n ih =>
    intro servers depth eps h
    cases hq : queryFirst net servers domain TypeA with
    | none =>
      simp only [findAuthLoop, hq] at h
      exact Except.noConfusion h
    | some resp =>
      simp only [findAuthLoop, hq] at h
      cases ha : resp.authoritative with
      | true =>
        rw [ha] at h
        simp only [if_true] at h
        have heps : eps = getAuthoritativeNS net lookup domain servers :=
          (Except.ok.inj h).symm
        rw [heps]
        exact getAuthoritativeNS_ne_nil net lookup domain servers
          (queryFirst_some_ne_nil hq)
      | false =>
        rw [ha] at h
        simp only [Bool.false_eq_true, if_false] at h
        cases he : (referralTargets lookup resp).isEmpty with
        | true =>
          rw [he] at h
          simp only [if_true] at h
          exact Except.noConfusion h
        | false =>
          rw [he] at h
          simp only [Bool.false_eq_true, if_false] at h
          exact ih (referralTargets lookup resp) (depth + 1) eps h

/-! ## Helper lemmas: mutex-guarded result application -/

theorem get?_set_self {α : Type} (l : List α) (i : Nat) (a : α) :
    (l.set i a).get? i = (l.get? i).map (fun _ => a) := by
  induction l generalizing i with
  | nil => cases i <;> rfl
  | cons x xs ih =>
    cases i with
    | zero => rfl
    | succ n => simpa using ih n

theorem get?_set_ne {α : Type} (l : List α) (i j : Nat) (a : α) (h : i ≠ j) :
    (l.set i a).get? j = l.get? j := by
  induction l generalizing i j with
  | nil => rfl
  | cons x xs ih =>
    cases i with
    | zero =>
      cases j with
      | zero => exact absurd rfl h
      | succ m => rfl
    | succ n =>
      cases j with
      | zero => rfl
      | succ m =>
        have hnm : n ≠ m := fun hh => h (by rw [hh])
        simpa using ih n m hnm

/-- A completion whose checker found no match changes nothing and emits
nothing. -/
theorem applyCompletion_not_found (sts : List ResolverStatus) (c : Completion)
    (h : c.found = false) : applyCompletion sts c = (sts, none) := by
  cases hg : sts.get? c.idx with
  | none => simp only [applyCompletion, hg]
  | some s =>
    simp only [applyCompletion, hg, h, Bool.false_and, Bool.false_eq_true, if_false]

/-- An emission for index i means: the completion was a match for target i
that was still unpropagated, and afterwards the target is propagated. -/
theorem applyCompletion_emit (sts : List ResolverStatus) (c : Completion) (i : Nat)
    (h : (applyCompletion sts c).2 = some i) :
    c.idx = i ∧ c.found = true ∧ propAt sts i = false ∧
      propAt (applyCompletion sts c).1 i = true := by
  cases hg : sts.get? c.idx with
  | none =>
    have heq : applyCompletion sts c = (sts, none) := by
      simp only [applyCompletion, hg]
    rw [heq] at h
    exact Option.noConfusion h
  | some s =>
    cases hcond : (c.found && !s.propagated) with
    | false =>
      have heq : applyCompletion sts c = (sts, none) := by
        simp only [applyCompletion, hg, hcond, Bool.false_eq_true, if_false]
      rw [heq] at h
      exact Option.noConfusion h
    | true =>
      have heq : applyCompletion sts c =
          (sts.set c.idx
            { s with propagated := true, foundAt := c.elapsed, record := c.record },
           some c.idx) := by
        simp only [applyCompletion, hg, hcond, if_true]
      rw [heq] at h
      have hidx : c.idx = i := Option.some.inj h
      have hsplit : c.found = true ∧ s.propagated = false := by simpa using hcond
      subst hidx
      refine ⟨rfl, hsplit.1, ?_, ?_⟩
      · unfold propAt
        rw [hg]
        exact hsplit.2
      · rw [heq]
        show propAt (sts.set c.idx
          { s with propagated := true, foundAt := c.elapsed, record := c.record }) c.idx = true
        unfold propAt
        rw [get?_set_self, hg]
        rfl

/-- A propagated target stays propagated across any single application. -/
theorem applyCompletion_mono (sts : List ResolverStatus) (c : Completion) (i : Nat)
    (h : propAt sts i = true) : propAt (applyCompletion sts c).1 i = true := by
  cases hg : sts.get? c.idx with
  | none =>
    have heq : applyCompletion sts c = (sts, none) := by
      simp only [applyCompletion, hg]
    rw [heq]
    exact h
  | some s =>
    cases hcond : (c.found && !s.propagated) with
    | false =>
      have heq : applyCompletion sts c = (sts, none) := by
        simp only [applyCompletion, hg, hcond, Bool.false_eq_true, if_false]
      rw [heq]
      exact h
    | true =>
      have heq : applyCompletion sts c =
          (sts.set c.idx
            { s with propagated := true, foundAt := c.elapsed, record := c.record },
           some c.idx) := by
        simp only [applyCompletion, hg, hcond, if_true]
      rw [heq]
      show propAt (sts.set c.idx
        { s with propagated := true, foundAt := c.elapsed, record := c.record }) i = true
      by_cases hij : c.idx = i
      · subst hij
        unfold propAt
        rw [get?_set_self, hg]
        rfl
      · unfold propAt at h ⊢
        rw [get?_set_ne _ _ _ _ hij]
        exact h

theorem countEmits_append (l1 l2 : List Nat) (i : Nat) :
    countEmits (l1 ++ l2) i = countEmits l1 i + countEmits l2 i := by
  induction l1 with
  | nil => simp [countEmits]
  | cons j rest ih =>
    show countEmits (j :: (rest ++ l2)) i = countEmits (j :: rest) i + countEmits l2 i
    simp only [countEmits]
    rw [ih]
    omega

/-- For a target already propagated, a serialized run of completions emits
nothing for it and leaves it propagated. -/
theorem applyCompletions_propagated (i : Nat) :
    ∀ (cs : List Completion) (sts : List ResolverStatus), propAt sts i = true →
      countEmits (applyCompletions sts cs).2 i = 0 ∧
        propAt (applyCompletions sts cs).1 i = true := by
  intro cs
  induction cs with
  | nil => intro sts h; exact ⟨rfl, h⟩
  | cons c rest ih =>
    intro sts h
    have hmono := applyCompletion_mono sts c i h
    simp only [applyCompletions]
    constructor
    · rw [countEmits_append]
      have hnot : countEmits (applyCompletion sts c).2.toList i = 0 := by
        cases hc2 : (applyCompletion sts c).2 with
        | none => rfl
        | some j =>
          obtain ⟨_, _, hfalse, _⟩ := applyCompletion_emit sts c j hc2
          by_cases hji : j = i
          · subst hji
            rw [hfalse] at h
            exact Bool.noConfusion h
          · simp [countEmits, hji]
      rw [hnot, (ih _ hmono).1]
    · exact (ih _ hmono).2

/-- Over any serialized sequence of completions, each target index is emitted
at most once. -/
theorem applyCompletions_le_one (i : Nat) :
    ∀ (cs : List Completion) (sts : List ResolverStatus),
      countEmits (applyCompletions sts cs).2 i ≤ 1 := by
  intro cs
  induction cs with
  | nil => intro sts; exact Nat.zero_le 1
  | cons c rest ih =>
    intro sts
    simp only [applyCompletions]
    rw [countEmits_append]
    cases hc2 : (applyCompletion sts c).2 with
    | none =>
      have := ih (applyCompletion sts c).1
      simp only [Option.toList, countEmits]
      omega
    | some j =>
      by_cases hji : j = i
      · subst hji
        obtain ⟨_, _, _, htrue⟩ := applyCompletion_emit sts c j hc2
        have hz := (applyCompletions_propagated j rest _ htrue).1
        simp only [Option.toList, countEmits, hz]
        simp
      · have := ih (applyCompletion sts c).1
        simp only [Option.toList, countEmits, hji, if_false]
        omega

/-- An emitted index comes from a found completion for that index, and the
target ends propagated. -/
theorem applyCompletions_mem (i : Nat) :
    ∀ (cs : List Completion) (sts : List ResolverStatus),
      i ∈ (applyCompletions sts cs).2 →
      (∃ c ∈ cs, c.idx = i ∧ c.found = true) ∧
        propAt (applyCompletions sts cs).1 i = true := by
  intro cs
  induction cs with
  | nil => intro sts h; cases h
  | cons c rest ih =>
    intro sts h
    simp only [applyCompletions] at h ⊢
    rw [List.mem_append] at h
    rcases h with h1 | h2
    · cases hc2 : (applyCompletion sts c).2 with
      | none =>
        rw [hc2] at h1
        cases h1
      | some j =>
        rw [hc2] at h1
        have hji : i = j := by simpa using h1
        subst hji
        obtain ⟨hidx, hf, _, htrue⟩ := applyCompletion_emit sts c i hc2
        exact ⟨⟨c, List.mem_cons_self _ _, hidx, hf⟩,
          (applyCompletions_propagated i rest _ htrue).2⟩
    · obtain ⟨⟨c', hc', hidx, hf⟩, htrue⟩ := ih _ h2
      exact ⟨⟨c', List.mem_cons_of_mem _ hc', hidx, hf⟩, htrue⟩

/-! ## Helper lemmas: resolver target list -/

theorem buildResolvers_foldl (ps : List String) (acc : List ResolverStatus) :
    ps.foldl (fun acc addr => acc ++ [⟨splitFirst addr, addr, false, 0, ""⟩]) acc =
      acc ++ ps.map (fun addr => ⟨splitFirst addr, addr, false, 0, ""⟩) := by
  induction ps generalizing acc with
  | nil => simp
  | cons p rest ih =>
    rw [List.foldl_cons, ih]
    simp

/-- The poller's resolver list is the configured resolvers mapped in order
followed by the synthetic local entry. -/
theorem buildResolvers_eq (ps : List String) :
    buildResolvers ps =
      ps.map (fun addr => ⟨splitFirst addr, addr, false, 0, ""⟩) ++
        [⟨"local", "", false, 0, ""⟩] := by
  unfold buildResolvers
  rw [buildResolvers_foldl]
  simp

/-! ## Helper lemmas: streaming engine -/

theorem isPropagatedEvent_not_terminal (e : StreamEvent)
    (h : isPropagatedEvent e = true) : isTerminal e = false := by
  cases e with
  | discovered n a => rfl
  | resolverListed n a => rfl
  | authPropagated n a r => rfl
  | resolverPropagated n a r => rfl
  | complete => exact Bool.noConfusion h
  | timeoutEv => exact Bool.noConfusion h
  | errorEv m => exact Bool.noConfusion h

theorem checkAuthOne_emit (q : Network) (domain : String) (dnsType : Nat)
    (mtch : String) (tick : Nat) (s : ResolverStatus) (e : StreamEvent)
    (h : (checkAuthOne q domain dnsType mtch tick s).2 = some e) :
    isPropagatedEvent e = true := by
  unfold checkAuthOne at h
  by_cases hp : s.propagated = true
  · rw [if_pos hp] at h
    exact Option.noConfusion h
  · rw [if_neg hp] at h
    by_cases hr : QueryAuthoritativeRecord q s.addr domain dnsType mtch ≠ ""
    · rw [if_pos hr] at h
      have he : e = StreamEvent.authPropagated s.name (trimSuffix s.addr ":53")
          (QueryAuthoritativeRecord q s.addr domain dnsType mtch) :=
        (Option.some.inj h).symm
      rw [he]
      rfl
    · rw [if_neg hr] at h
      exact Option.noConfusion h

theorem checkResOne_emit (sys : ResolverOracle) (dial : String → ResolverOracle)
    (domain recordType mtch : String) (tick : Nat) (r : ResolverStatus) (e : StreamEvent)
    (h : (checkResOne sys dial domain recordType mtch tick r).2 = some e) :
    isPropagatedEvent e = true := by
  unfold checkResOne at h
  by_cases hp : r.propagated = true
  · rw [if_pos hp] at h
    exact Option.noConfusion h
  · rw [if_neg hp] at h
    by_cases hr : (CheckResolver sys dial r.addr (trimSuffix domain ".") recordType mtch).2 = true
    · rw [if_pos hr] at h
      have he : e = StreamEvent.resolverPropagated r.name (displayAddr r.addr)
          (CheckResolver sys dial r.addr (trimSuffix domain ".") recordType mtch).1 :=
        (Option.some.inj h).symm
      rw [he]
      rfl
    · rw [if_neg hr] at h
      exact Option.noConfusion h

theorem sweepList_emits (check : ResolverStatus → ResolverStatus × Option StreamEvent)
    (hch : ∀ s e, (check s).2 = some e → isPropagatedEvent e = true) :
    ∀ (l : List ResolverStatus) (e : StreamEvent),
      e ∈ (sweepList check l).2 → isPropagatedEvent e = true := by
  intro l
  induction l with
  | nil => intro e h; cases h
  | cons s rest ih =>
    intro e h
    simp only [sweepList] at h
    rw [List.mem_append] at h
    rcases h with h1 | h2
    · cases hc : (check s).2 with
      | none =>
        rw [hc] at h1
        cases h1
      | some ev =>
        rw [hc] at h1
        have he : e = ev := by simpa using h1
        subst he
        exact hch s e hc
    · exact ih e h2

theorem checkAll_emits (env : NetEnv) (domain recordType mtch : String)
    (dnsType tick : Nat) (auth res : List ResolverStatus) (e : StreamEvent)
    (h : e ∈ (checkAll env domain recordType mtch dnsType tick auth res).2) :
    isPropagatedEvent e = true := by
  simp only [checkAll] at h
  rw [List.mem_append] at h
  rcases h with h | h
  · exact sweepList_emits _
      (fun s e he => checkAuthOne_emit (env.query tick) domain dnsType mtch tick s e he)
      auth e h
  · exact sweepList_emits _
      (fun r e he => checkResOne_emit (env.sys tick) (env.dial tick) domain
        recordType mtch tick r e he)
      res e h

/-- Every poll loop run delivers a list of propagation events followed by a
single terminal event, complete or timeout. -/
theorem pollLoop_shape (env : NetEnv) (domain recordType mtch : String) (dnsType : Nat) :
    ∀ (fuel : Nat) (auth res : List ResolverStatus) (tick : Nat),
      ∃ pre t, pollLoop env domain recordType mtch dnsType auth res tick fuel = pre ++ [t]
        ∧ (t = StreamEvent.complete ∨ t = StreamEvent.timeoutEv)
        ∧ ∀ e ∈ pre, isPropagatedEvent e = true := by
  intro fuel
  induction fuel with
  | zero =>
    intro auth res tick
    by_cases hd : allDone auth res = true
    · exact ⟨[], StreamEvent.complete, by simp [pollLoop, hd], Or.inl rfl,
        fun e he => absurd he (List.not_mem_nil e)⟩
    · exact ⟨[], StreamEvent.timeoutEv, by simp [pollLoop, hd], Or.inr rfl,
        fun e he => absurd he (List.not_mem_nil e)⟩
  | succ n ih =>
    intro auth res tick
    by_cases hd : allDone auth res = true
    · exact ⟨[], StreamEvent.complete, by simp [pollLoop, hd], Or.inl rfl,
        fun e he => absurd he (List.not_mem_nil e)⟩
    · obtain ⟨pre, t, heq, hterm, hpre⟩ :=
        ih (checkAll env domain recordType mtch dnsType (tick + 1) auth res).1.1
          (checkAll env domain recordType mtch dnsType (tick + 1) auth res).1.2 (tick + 1)
      refine ⟨(checkAll env domain recordType mtch dnsType (tick + 1) auth res).2 ++ pre,
        t, ?_, hterm, ?_⟩
      · simp [pollLoop, hd, heq, List.append_assoc]
      · intro e he
        rw [List.mem_append] at he
        rcases he with he | he
        · exact checkAll_emits env domain recordType mtch dnsType (tick + 1) auth res e he
        · exact hpre e he

/-! ## Helper lemmas: record type ns can never propagate -/

theorem QueryAuthoritativeRecord_ns (net : Network) (server domain mtch : String) :
    QueryAuthoritativeRecord net server domain TypeNS mtch = "" := by
  unfold QueryAuthoritativeRecord
  cases hq : net server domain TypeNS with
  | none => rfl
  | some resp => exact MatchRecord_ns_eq resp.answer mtch

theorem CheckResolver_ns (sys : ResolverOracle) (dial : String → ResolverOracle)
    (addr domain mtch : String) :
    CheckResolver sys dial addr domain "ns" mtch = ("", false) := rfl

theorem checkAuthOne_ns (q : Network) (domain mtch : String) (tick : Nat)
    (s : ResolverStatus) : checkAuthOne q domain TypeNS mtch tick s = (s, none) := by
  unfold checkAuthOne
  rw [QueryAuthoritativeRecord_ns]
  simp

theorem checkResOne_ns (sys : ResolverOracle) (dial : String → ResolverOracle)
    (domain mtch : String) (tick : Nat) (r : ResolverStatus) :
    checkResOne sys dial domain "ns" mtch tick r = (r, none) := by
  unfold checkResOne
  rw [CheckResolver_ns]
  simp

theorem sweepList_id (check : ResolverStatus → ResolverStatus × Option StreamEvent)
    (hch : ∀ s, check s = (s, none)) :
    ∀ l : List ResolverStatus, sweepList check l = (l, []) := by
  intro l
  induction l with
  | nil => rfl
  | cons s rest ih => simp [sweepList, hch s, ih]

theorem allPropagated_buildResolvers (ps : List String) :
    allPropagated (buildResolvers ps) = false := by
  unfold allPropagated buildResolvers
  rw [List.all_append]
  simp

theorem checkAll_ns (env : NetEnv) (domain mtch : String) (tick : Nat)
    (auth res : List ResolverStatus) :
    checkAll env domain "ns" mtch TypeNS tick auth res = ((auth, res), []) := by
  unfold checkAll
  rw [sweepList_id _ (fun s => checkAuthOne_ns (env.query tick) domain mtch tick s) auth,
    sweepList_id _ (fun r => checkResOne_ns (env.sys tick) (env.dial tick) domain mtch tick r) res]
  rfl

theorem pollLoop_ns (env : NetEnv) (domain mtch : String) :
    ∀ (fuel : Nat) (auth res : List ResolverStatus) (tick : Nat),
      allPropagated res = false →
      pollLoop env domain "ns" mtch TypeNS auth res tick fuel = [StreamEvent.timeoutEv] := by
  intro fuel
  induction fuel with
  | zero =>
    intro auth res tick h
    have hd : allDone auth res = false := by
      unfold allDone
      rw [h, Bool.and_false]
    simp [pollLoop, hd]
  | succ n ih =>
    intro auth res tick h
    have hd : allDone auth res = false := by
      unfold allDone
      rw [h, Bool.and_false]
    have hca := checkAll_ns env domain mtch (tick + 1) auth res
    have hrec := ih auth res (tick + 1) h
    simp [pollLoop, hd, hca, hrec]

/-! ## Claim theorems -/

/-- C1: for every run of the streaming engine runCheckStream, the emitted
event sequence contains exactly one terminal event (complete, timeout or
error) and that terminal event is the last element of the sequence; no
event is emitted after it. -/
theorem runCheckStream_one_terminal (cfg : Config) (env : NetEnv)
    (domain recordType mtch : String) (dnsType fuel : Nat) :
    ((runCheckStream cfg env domain recordType mtch dnsType fuel).filter
        (fun e => isTerminal e)).length = 1
  ∧ ((runCheckStream cfg env domain recordType mtch dnsType fuel).dropLast.filter
        (fun e => isTerminal e)).length = 0 := by
  have key : ∃ pre t, runCheckStream cfg env domain recordType mtch dnsType fuel = pre ++ [t]
      ∧ isTerminal t = true ∧ ∀ e ∈ pre, isTerminal e = false := by
    cases hfa : FindAuthoritativeServers (env.query 0) env.lookup domain cfg.rootServers with
    | error e =>
      refine ⟨[], StreamEvent.errorEv
        ("failed to find authoritative servers: " ++ resolveErrorMessage e), ?_, rfl,
        fun e he => absurd he (List.not_mem_nil e)⟩
      simp [runCheckStream, hfa]
    | ok auth =>
      obtain ⟨pre, t, heq, hterm, hpre⟩ := pollLoop_shape env domain recordType mtch dnsType
        fuel
        (checkAll env domain recordType mtch dnsType 0 auth
          (buildResolvers cfg.publicResolvers)).1.1
        (checkAll env domain recordType mtch dnsType 0 auth
          (buildResolvers cfg.publicResolvers)).1.2 0
      refine ⟨auth.map (fun s => StreamEvent.discovered s.name (trimSuffix s.addr ":53"))
          ++ (buildResolvers cfg.publicResolvers).map
              (fun r => StreamEvent.resolverListed r.name (displayAddr r.addr))
          ++ (checkAll env domain recordType mtch dnsType 0 auth
              (buildResolvers cfg.publicResolvers)).2
          ++ pre, t, ?_, ?_, ?_⟩
      · simp [runCheckStream, hfa, heq, List.append_assoc]
      · rcases hterm with h | h <;> rw [h] <;> rfl
      · intro e he
        simp only [List.append_assoc, List.mem_append] at he
        rcases he with he | he | he | he
        · obtain ⟨s, _, hs⟩ := List.mem_map.mp he
          rw [← hs]
          rfl
        · obtain ⟨r, _, hr⟩ := List.mem_map.mp he
          rw [← hr]
          rfl
        · exact isPropagatedEvent_not_terminal e
            (checkAll_emits env domain recordType mtch dnsType 0 auth
              (buildResolvers cfg.publicResolvers) e he)
        · exact isPropagatedEvent_not_terminal e (hpre e he)
  obtain ⟨pre, t, heq, hterm, hpre⟩ := key
  rw [heq]
  have hfil : pre.filter (fun e => isTerminal e) = [] := by
    rw [List.filter_eq_nil_iff]
    intro a ha hcontra
    rw [hpre a ha] at hcontra
    exact Bool.noConfusion hcontra
  constructor
  · rw [List.filter_append, hfil]
    simp [hterm]
  · rw [List.dropLast_concat, hfil]
    rfl

/-- C1 witness: a concrete dead-network run has exactly one terminal event
and it is last. -/
theorem runCheckStream_one_terminal_witness :
    ((runCheckStream cfg0 env0 "example.com." "a" "192.0.2.7" TypeA 2).filter
        (fun e => isTerminal e)).length = 1
  ∧ ((runCheckStream cfg0 env0 "example.com." "a" "192.0.2.7" TypeA 2).dropLast.filter
        (fun e => isTerminal e)).length = 0 :=
  runCheckStream_one_terminal cfg0 env0 "example.com." "a" "192.0.2.7" TypeA 2

/-- C2: under the shared mutex, a target's propagated flag transitions from
false to true at most once, the transition and the writes happen only for a
completion whose checker reported a match, a propagation event is emitted at
most once per target, and a second concurrent success for an
already-propagated target is discarded and not re-emitted. -/
theorem propagation_applied_once (sts : List ResolverStatus) (cs : List Completion)
    (i : Nat) :
    countEmits (applyCompletions sts cs).2 i ≤ 1
  ∧ (propAt sts i = true →
      countEmits (applyCompletions sts cs).2 i = 0 ∧
        propAt (applyCompletions sts cs).1 i = true)
  ∧ (∀ c : Completion, c.found = false → applyCompletion sts c = (sts, none))
  ∧ (i ∈ (applyCompletions sts cs).2 →
      (∃ c ∈ cs, c.idx = i ∧ c.found = true) ∧
        propAt (applyCompletions sts cs).1 i = true) :=
  ⟨applyCompletions_le_one i cs sts,
   applyCompletions_propagated i cs sts,
   fun c h => applyCompletion_not_found sts c h,
   applyCompletions_mem i cs sts⟩

/-- C2 witness: a duplicate concurrent success against an already-propagated
target emits nothing. -/
theorem propagation_applied_once_witness :
    countEmits (applyCompletions
      [⟨"ns1", "192.0.2.1:53", true, 0, ""⟩]
      [⟨0, true, "A 192.0.2.1", 1⟩, ⟨0, true, "A 192.0.2.1", 2⟩]).2 0 = 0 :=
  ((propagation_applied_once
      [⟨"ns1", "192.0.2.1:53", true, 0, ""⟩]
      [⟨0, true, "A 192.0.2.1", 1⟩, ⟨0, true, "A 192.0.2.1", 2⟩] 0).2.1 (by decide)).1

/-- C3: FindAuthoritativeServers performs at most 10 referral iterations; a
depth at which no candidate responds fails with the noResponse error for
that depth, and a network that keeps referring without ever answering
authoritatively exhausts the 10 hops and fails with maxDepthExceeded. -/
theorem findAuthoritativeServers_contract (net : Network) (lookup : Lookup)
    (domain : String) :
    (∀ (servers : List String) (depth fuel : Nat), fuel ≠ 0 →
        queryFirst net servers domain TypeA = none →
        findAuthLoop net lookup domain servers depth fuel =
          Except.error (ResolveError.noResponse depth))
  ∧ (∀ servers : List String, servers ≠ [] →
        (∀ s d, ∃ resp, net s d TypeA = some resp ∧ resp.authoritative = false ∧
          (referralTargets lookup resp).isEmpty = false) →
        FindAuthoritativeServers net lookup domain servers =
          Except.error ResolveError.maxDepthExceeded)
  ∧ (∀ (servers : List String) (fuel : Nat),
        findAuthHops net lookup domain servers fuel ≤ fuel)
  ∧ (∀ servers : List String, findAuthHops net lookup domain servers 10 ≤ 10) :=
  ⟨fun servers depth fuel hf hq =>
      findAuthLoop_noResponse net lookup domain servers depth fuel hf hq,
   fun servers hne H => findAuthLoop_maxDepth net lookup domain H 10 servers 0 hne,
   fun servers fuel => findAuthHops_le net lookup domain fuel servers,
   fun servers => findAuthHops_le net lookup domain 10 servers⟩

/-- C3 witness: on a dead network the walk fails with noResponse at depth 0. -/
theorem findAuthoritativeServers_contract_witness :
    findAuthLoop netNone lookupNone "example.com." ["198.41.0.4:53"] 0 10 =
      Except.error (ResolveError.noResponse 0) :=
  (findAuthoritativeServers_contract netNone lookupNone "example.com.").1
    ["198.41.0.4:53"] 0 10 (by decide) rfl

/-- C4: a glue A record present in the additional section for the exact NS
name is always used in preference to a forward lookup, and in the referral
walk scenario where glue covers every NS name the resolver returns exactly
the glue endpoints for every possible forward-lookup oracle, hence without
performing any forward name lookup. -/
theorem glue_precedence :
    (∀ (lookup : Lookup) (glue : String → Option String) (nsName ip : String),
        glue nsName = some ip → resolveNSName lookup glue nsName = some ip)
  ∧ (∀ lookup : Lookup,
        FindAuthoritativeServers scenarioNet lookup "sub.example.com." scenarioRoots =
          Except.ok [⟨"ns1.example.com", "192.0.2.1:53", false, 0, ""⟩,
                     ⟨"ns2.example.com", "192.0.2.2:53", false, 0, ""⟩]) := by
  constructor
  · intro lookup glue nsName ip h
    unfold resolveNSName
    rw [h]
  · intro lookup
    rfl

/-- C4 witness: a concrete glue entry short-circuits the failing forward
lookup. -/
theorem glue_precedence_witness :
    resolveNSName lookupNone
      (fun n => if n = "ns1.example.com." then some "192.0.2.1" else none)
      "ns1.example.com." = some "192.0.2.1" :=
  glue_precedence.1 lookupNone
    (fun n => if n = "ns1.example.com." then some "192.0.2.1" else none)
    "ns1.example.com." "192.0.2.1" (by decide)

/-- C5: when the NS query gets no response, or the response yields zero
resolvable NS names, getAuthoritativeNS returns the current candidate
servers verbatim as endpoints, so a walk that reached an authoritative
server always returns a non-empty endpoint list. -/
theorem getAuthoritativeNS_fallback (net : Network) (lookup : Lookup)
    (domain : String) :
    (∀ currentNS : List String,
        queryFirst net currentNS domain TypeNS = none →
        getAuthoritativeNS net lookup domain currentNS = currentNS.map fallbackStatus)
  ∧ (∀ (currentNS : List String) (resp : Msg),
        queryFirst net currentNS domain TypeNS = some resp →
        authNSResolved lookup resp = [] →
        getAuthoritativeNS net lookup domain currentNS = currentNS.map fallbackStatus)
  ∧ (∀ currentNS : List String, currentNS ≠ [] →
        getAuthoritativeNS net lookup domain currentNS ≠ [])
  ∧ (∀ (servers : List String) (eps : List ResolverStatus),
        FindAuthoritativeServers net lookup domain servers = Except.ok eps → eps ≠ []) :=
  ⟨fun currentNS hq => getAuthoritativeNS_noResponse net lookup domain currentNS hq,
   fun currentNS resp hq he =>
      getAuthoritativeNS_emptyResolved net lookup domain currentNS resp hq he,
   fun currentNS h => getAuthoritativeNS_ne_nil net lookup domain currentNS h,
   fun servers eps h => findAuthLoop_ok_ne_nil net lookup domain 10 servers 0 eps h⟩

/-- C5 witness: with no NS response the candidate is returned verbatim. -/
theorem getAuthoritativeNS_fallback_witness :
    getAuthoritativeNS netNone lookupNone "example.com." ["198.41.0.4:53"] =
      [⟨"198.41.0.4", "198.41.0.4:53", false, 0, ""⟩] := by
  have h := (getAuthoritativeNS_fallback netNone lookupNone "example.com.").1
    ["198.41.0.4:53"] rfl
  rw [h]
  decide

/-- C6 counterexample: a TXT record whose joined text is empty contains the
empty target as a substring, yet MatchRecord returns "", the no-match
sentinel, so "succeeds iff some TXT record's joined text contains the
target" fails at this input. -/
theorem matchRecord_txt_empty_cex :
    strContains (String.join ([] : List String)) "" = true
  ∧ MatchRecord [RR.txt "example.com." []] TypeTXT "" = "" := by decide

/-- C6 amended: for answer sets in which every TXT record has non-empty
joined text, the TXT matcher succeeds iff some TXT record's joined
character-strings contain the target as a substring; whenever it succeeds
it returns the full joined text of a containing TXT record; the concrete
spf example matches for target v=spf1 returning the full text and fails
for target nomatch. -/
theorem matchRecord_txt_amended :
    (∀ (answers : List RR) (mtch : String),
        (∀ name strs, RR.txt name strs ∈ answers → String.join strs ≠ "") →
        (MatchRecord answers TypeTXT mtch ≠ "" ↔
          ∃ name strs, RR.txt name strs ∈ answers ∧
            strContains (String.join strs) mtch = true))
  ∧ (∀ (answers : List RR) (mtch : String), MatchRecord answers TypeTXT mtch ≠ "" →
        ∃ name strs, RR.txt name strs ∈ answers ∧
          MatchRecord answers TypeTXT mtch = String.join strs ∧
          strContains (String.join strs) mtch = true)
  ∧ MatchRecord [RR.txt "example.com." ["v=spf1 include:_spf.example.com ~all"]]
      TypeTXT "v=spf1" = "v=spf1 include:_spf.example.com ~all"
  ∧ MatchRecord [RR.txt "example.com." ["v=spf1 include:_spf.example.com ~all"]]
      TypeTXT "nomatch" = "" := by
  refine ⟨?_, ?_, by decide, by decide⟩
  · intro answers mtch hne
    constructor
    · intro h
      obtain ⟨name, strs, hmem, _, hc⟩ := MatchRecord_txt_success answers mtch h
      exact ⟨name, strs, hmem, hc⟩
    · intro hex
      exact MatchRecord_txt_found answers mtch hne hex
  · intro answers mtch h
    exact MatchRecord_txt_success answers mtch h

/-- C6 witness: the spf example satisfies the amended iff. -/
theorem matchRecord_txt_amended_witness :
    MatchRecord [RR.txt "example.com." ["v=spf1 include:_spf.example.com ~all"]]
      TypeTXT "v=spf1" ≠ "" :=
  (matchRecord_txt_amended.1
      [RR.txt "example.com." ["v=spf1 include:_spf.example.com ~all"]] "v=spf1"
      (by
        intro name strs hmem
        have h := List.mem_singleton.mp hmem
        injection h with h1 h2
        subst h2
        decide)).mpr
    ⟨"example.com.", ["v=spf1 include:_spf.example.com ~all"], by decide, by decide⟩

/-- C7 counterexample: for record type aaaa, a resolver whose every lookup
answers with exactly the target address 2001:db8::1 still yields no match
from CheckResolver, refuting the claim that the AAAA resolver check reports
a match on an exactly-equal address. -/
theorem checkResolver_aaaa_cex :
    CheckResolver oracleAAAA (fun _ => oracleAAAA) "9.9.9.9:53" "example.com" "aaaa"
      "2001:db8::1" = ("", false)
  ∧ oracleAAAA.lookupIP4 "example.com" = some ["2001:db8::1"] :=
  ⟨rfl, rfl⟩

/-- C7 amended: CheckResolver performs the type-specific lookup and matching
only for record types a, txt, cname and mx; record type aaaa (like any
other unlisted type) falls through to no match; for record type a an answer
containing an address exactly equal to the target value reports a match. -/
theorem checkResolver_supported_types (sys : ResolverOracle)
    (dial : String → ResolverOracle) (addr domain mtch : String) :
    CheckResolver sys dial addr domain "a" mtch =
      checkA (pickResolver sys dial addr) domain mtch
  ∧ CheckResolver sys dial addr domain "txt" mtch =
      checkTXT (pickResolver sys dial addr) domain mtch
  ∧ CheckResolver sys dial addr domain "cname" mtch =
      checkCNAME (pickResolver sys dial addr) domain mtch
  ∧ CheckResolver sys dial addr domain "mx" mtch =
      checkMX (pickResolver sys dial addr) domain mtch
  ∧ CheckResolver sys dial addr domain "aaaa" mtch = ("", false)
  ∧ (∀ (r : ResolverOracle) (ips : List String), r.lookupIP4 domain = some ips →
      mtch ∈ ips → (checkA r domain mtch).2 = true) := by
  refine ⟨rfl, rfl, rfl, rfl, rfl, ?_⟩
  intro r ips hlk hmem
  unfold checkA
  rw [hlk]
  show (match ips.find? (fun ip => ip = mtch) with
    | some ip => ("A " ++ ip, true)
    | none => ("", false)).2 = true
  cases hf : ips.find? (fun ip => ip = mtch) with
  | some ip => rfl
  | none =>
    exfalso
    have hnone := List.find?_eq_none.mp hf mtch hmem
    simp at hnone

/-- C7 witness: the a-type exact-equality match fires on a concrete answer. -/
theorem checkResolver_supported_types_witness :
    (checkA oracleAAAA "example.com" "2001:db8::1").2 = true :=
  (checkResolver_supported_types oracleAAAA (fun _ => oracleAAAA) "" "example.com"
      "2001:db8::1").2.2.2.2.2 oracleAAAA ["2001:db8::1"] rfl (by decide)

/-- C8: a failed query or lookup makes each individual target check return
no match instead of an error, and an error event in a stream run can only
come from the authoritative-discovery stage failing. -/
theorem network_errors_absorbed :
    (∀ (net : Network) (server domain : String) (qtype : Nat) (mtch : String),
        net server domain qtype = none →
        QueryAuthoritativeRecord net server domain qtype mtch = "")
  ∧ (∀ (r : ResolverOracle) (domain mtch : String), r.lookupIP4 domain = none →
        checkA r domain mtch = ("", false))
  ∧ (∀ (r : ResolverOracle) (domain mtch : String), r.lookupTXT domain = none →
        checkTXT r domain mtch = ("", false))
  ∧ (∀ (r : ResolverOracle) (domain mtch : String), r.lookupCNAME domain = none →
        checkCNAME r domain mtch = ("", false))
  ∧ (∀ (r : ResolverOracle) (domain mtch : String), r.lookupMX domain = none →
        checkMX r domain mtch = ("", false))
  ∧ (∀ (cfg : Config) (env : NetEnv) (domain recordType mtch : String)
        (dnsType fuel : Nat) (msg : String),
        StreamEvent.errorEv msg ∈ runCheckStream cfg env domain recordType mtch dnsType fuel →
        ∃ e, FindAuthoritativeServers (env.query 0) env.lookup domain cfg.rootServers =
          Except.error e) := by
  refine ⟨?_, ?_, ?_, ?_, ?_, ?_⟩
  · intro net server domain qtype mtch h
    unfold QueryAuthoritativeRecord
    rw [h]
  · intro r domain mtch h
    unfold checkA
    rw [h]
  · intro r domain mtch h
    unfold checkTXT
    rw [h]
  · intro r domain mtch h
    unfold checkCNAME
    rw [h]
  · intro r domain mtch h
    unfold checkMX
    rw [h]
  · intro cfg env domain recordType mtch dnsType fuel msg hmem
    cases hfa : FindAuthoritativeServers (env.query 0) env.lookup domain cfg.rootServers with
    | error e => exact ⟨e, rfl⟩
    | ok auth =>
      exfalso
      simp only [runCheckStream, hfa] at hmem
      obtain ⟨pre, t, heq, hterm, hpre⟩ := pollLoop_shape env domain recordType mtch dnsType
        fuel
        (checkAll env domain recordType mtch dnsType 0 auth
          (buildResolvers cfg.publicResolvers)).1.1
        (checkAll env domain recordType mtch dnsType 0 auth
          (buildResolvers cfg.publicResolvers)).1.2 0
      rw [heq] at hmem
      simp only [List.append_assoc, List.mem_append] at hmem
      rcases hmem with hm | hm | hm | hm | hm
      · obtain ⟨s, _, hs⟩ := List.mem_map.mp hm
        exact StreamEvent.noConfusion hs
      · obtain ⟨r, _, hr⟩ := List.mem_map.mp hm
        exact StreamEvent.noConfusion hr
      · have := checkAll_emits env domain recordType mtch dnsType 0 auth
          (buildResolvers cfg.publicResolvers) _ hm
        exact Bool.noConfusion this
      · have := hpre _ hm
        exact Bool.noConfusion this
      · have ht : StreamEvent.errorEv msg = t := List.mem_singleton.mp hm
        rcases hterm with h | h <;> rw [h] at ht <;> exact StreamEvent.noConfusion ht

/-- C8 witness: a dead-network authoritative check returns no match. -/
theorem network_errors_absorbed_witness :
    QueryAuthoritativeRecord netNone "198.41.0.4:53" "example.com." TypeA "192.0.2.7" = "" :=
  network_errors_absorbed.1 netNone "198.41.0.4:53" "example.com." TypeA "192.0.2.7" rfl

/-- C9: the poller's resolver target list is every configured public
resolver in configuration order followed by exactly one synthetic local
entry with an empty address, and an empty address makes the resolver check
use the system resolver instead of dialing a specific server. -/
theorem resolver_list_layout (ps : List String) (sys : ResolverOracle)
    (dial : String → ResolverOracle) :
    buildResolvers ps =
      ps.map (fun addr => ⟨splitFirst addr, addr, false, 0, ""⟩) ++
        [⟨"local", "", false, 0, ""⟩]
  ∧ (buildResolvers ps).length = ps.length + 1
  ∧ (buildResolvers ps).getLast? = some ⟨"local", "", false, 0, ""⟩
  ∧ pickResolver sys dial "" = sys
  ∧ (∀ addr : String, addr ≠ "" → pickResolver sys dial addr = dial addr)
  ∧ (∀ domain mtch : String,
      CheckResolver sys dial "" domain "a" mtch = checkA sys domain mtch) := by
  refine ⟨buildResolvers_eq ps, ?_, ?_, rfl, ?_, ?_⟩
  · rw [buildResolvers_eq]
    simp
  · rw [buildResolvers_eq]
    exact List.getLast?_concat _
  · intro addr h
    unfold pickResolver
    rw [if_neg h]
  · intro domain mtch
    rfl

/-- C9 witness: a non-empty address dials the specific resolver. -/
theorem resolver_list_layout_witness :
    pickResolver oracleNone (fun _ => oracleAAAA) "1.1.1.1:53" = oracleAAAA :=
  (resolver_list_layout [] oracleNone (fun _ => oracleAAAA)).2.2.2.2.1 "1.1.1.1:53"
    (by decide)

/-- C10: the record type string ns passes boundary validation with a nonzero
type code, yet MatchRecord never matches at the NS type and CheckResolver
never matches for ns, so a sweep with record type ns changes no state and
emits nothing, a run with record type ns emits no propagation event, and
the all-propagated complete outcome is unreachable. -/
theorem recordType_ns_never_completes :
    (ParseRecordType "ns" = TypeNS ∧ TypeNS ≠ 0)
  ∧ (∀ (answers : List RR) (mtch : String), MatchRecord answers TypeNS mtch = "")
  ∧ (∀ (sys : ResolverOracle) (dial : String → ResolverOracle)
        (addr domain mtch : String),
      CheckResolver sys dial addr domain "ns" mtch = ("", false))
  ∧ (∀ (env : NetEnv) (domain mtch : String) (tick : Nat)
        (auth res : List ResolverStatus),
      checkAll env domain "ns" mtch TypeNS tick auth res = ((auth, res), []))
  ∧ (∀ (cfg : Config) (env : NetEnv) (domain mtch : String) (fuel : Nat),
      ((runCheckStream cfg env domain "ns" mtch TypeNS fuel).filter
          (fun e => isPropagatedEvent e)).length = 0
      ∧ StreamEvent.complete ∉ runCheckStream cfg env domain "ns" mtch TypeNS fuel) := by
  refine ⟨⟨by decide, by decide⟩, MatchRecord_ns_eq,
    fun sys dial addr domain mtch => CheckResolver_ns sys dial addr domain mtch,
    fun env domain mtch tick auth res => checkAll_ns env domain mtch tick auth res, ?_⟩
  intro cfg env domain mtch fuel
  cases hfa : FindAuthoritativeServers (env.query 0) env.lookup domain cfg.rootServers with
  | error e =>
    have hout : runCheckStream cfg env domain "ns" mtch TypeNS fuel =
        [StreamEvent.errorEv ("failed to find authoritative servers: " ++
          resolveErrorMessage e)] := by
      simp [runCheckStream, hfa]
    rw [hout]
    exact ⟨rfl, by simp⟩
  | ok auth =>
    have hout : runCheckStream cfg env domain "ns" mtch TypeNS fuel =
        auth.map (fun s => StreamEvent.discovered s.name (trimSuffix s.addr ":53"))
        ++ (buildResolvers cfg.publicResolvers).map
            (fun r => StreamEvent.resolverListed r.name (displayAddr r.addr))
        ++ [StreamEvent.timeoutEv] := by
      simp only [runCheckStream, hfa, checkAll_ns]
      simp only [pollLoop_ns env domain mtch fuel auth (buildResolvers cfg.publicResolvers)
        0 (allPropagated_buildResolvers cfg.publicResolvers)]
      simp
    rw [hout]
    constructor
    · rw [List.length_eq_zero, List.filter_eq_nil_iff]
      intro a ha
      simp only [List.append_assoc, List.mem_append] at ha
      rcases ha with ha | ha | ha
      · obtain ⟨s, _, hs⟩ := List.mem_map.mp ha
        rw [← hs]
        simp [isPropagatedEvent]
      · obtain ⟨r, _, hr⟩ := List.mem_map.mp ha
        rw [← hr]
        simp [isPropagatedEvent]
      · have ht : a = StreamEvent.timeoutEv := List.mem_singleton.mp ha
        rw [ht]
        simp [isPropagatedEvent]
    · intro hmem
      simp only [List.append_assoc, List.mem_append] at hmem
      rcases hmem with hm | hm | hm
      · obtain ⟨s, _, hs⟩ := List.mem_map.mp hm
        exact StreamEvent.noConfusion hs
      · obtain ⟨r, _, hr⟩ := List.mem_map.mp hm
        exact StreamEvent.noConfusion hr
      · have ht : StreamEvent.complete = StreamEvent.timeoutEv := List.mem_singleton.mp hm
        exact StreamEvent.noConfusion ht

/-- C10 witness: a concrete ns-type run emits no propagation event and never
completes. -/
theorem recordType_ns_never_completes_witness :
    ((runCheckStream cfg0 env0 "example.com." "ns" "x" TypeNS 3).filter
        (fun e => isPropagatedEvent e)).length = 0
  ∧ StreamEvent.complete ∉ runCheckStream cfg0 env0 "example.com." "ns" "x" TypeNS 3 :=
  recordType_ns_never_completes.2.2.2.2 cfg0 env0 "example.com." "x" 3

end Ripple
